import Mathlib

/-
Verification of the training-loop state machine and metric-aggregation
component of the QML_MG5_Jet repository.

The embedded code is `BinaryLitModel` from `module_training.py` (forward,
the per-phase epoch hooks and steps) and the checkpoint resolution of the
train driver in `a.py` (lines 270-277).

Modelling conventions:
 * Scores (logits) and metric values are rationals (ℚ); true labels are
   booleans (the source puts the class labels 0/1 into `data.y`).
 * The wrapped differentiable model, the loss value and `torch.sigmoid`
   are external collaborators: they are passed in as function parameters
   (`modelG`/`modelF`, `lossFn`, `σ`).  The one property of
   `torch.sigmoid` that matters for ROC-AUC is strict monotonicity, taken
   as a hypothesis where needed.  The driver instantiates the model with
   `loss_func=None`, i.e. `torch.nn.BCEWithLogitsLoss`, which raises
   `ValueError` when the target size differs from the input size; that
   shape check is embedded explicitly, while the numeric loss value stays
   the opaque `lossFn`.
 * Python object attributes that may be unset (`self.y_train_true_buffer`
   etc., `self.start_time`) are `Option`s; reading `none` models the
   `AttributeError` that the corresponding Python read raises.
 * Exceptions are `Except String`; where a claim is about buffer state at
   the time of a failure, the operation returns the post-state next to the
   `Except` result, mirroring the fact that a raised Python exception
   leaves already-performed attribute mutations in place.
-/

namespace QMLJet

/-! ## External collaborator: sklearn.metrics.roc_auc_score

Modelled from the external `sklearn.metrics.roc_auc_score` for binary
integer labels: it first checks that the two arrays have consistent
lengths, raises `ValueError` when fewer than two distinct label classes
are present in `y_true`, and otherwise returns the trapezoidal area under
the ROC curve, which for binary labels equals the Mann-Whitney statistic:
the fraction of (positive, negative) pairs ranked correctly, counting
ties as one half. -/

/-- One (positive score, negative score) comparison: 1 if ranked
correctly, 1/2 on a tie, 0 otherwise. -/
def cmpHalf (p n : ℚ) : ℚ :=
  if n < p then 1 else if p = n then 1/2 else 0

/-- Scores of the positive-label entries of a (label, score) pair list. -/
def posScores (pairs : List (Bool × ℚ)) : List ℚ :=
  (pairs.filter fun q => q.1).map fun q => q.2

/-- Scores of the negative-label entries of a (label, score) pair list. -/
def negScores (pairs : List (Bool × ℚ)) : List ℚ :=
  (pairs.filter fun q => !q.1).map fun q => q.2

/-- Mann-Whitney form of the binary ROC-AUC over (label, score) pairs. -/
def aucPairs (pairs : List (Bool × ℚ)) : ℚ :=
  ((posScores pairs).map fun p => ((negScores pairs).map fun n => cmpHalf p n).sum).sum /
    ((posScores pairs).length * (negScores pairs).length)

/-- Modelled from the external `sklearn.metrics.roc_auc_score` (see the
section comment): length-consistency check, the single-class
`ValueError`, then the Mann-Whitney value.  An empty `yTrue` contains
neither class and therefore also lands in the single-class error. -/
def roc_auc_score (yTrue : List Bool) (yScore : List ℚ) : Except String ℚ :=
  if yTrue.length = yScore.length then
    if true ∈ yTrue ∧ false ∈ yTrue then
      .ok (aucPairs (yTrue.zip yScore))
    else
      .error "ValueError: Only one class present in y_true. ROC AUC score is not defined in that case."
  else
    .error "ValueError: Found input variables with inconsistent numbers of samples"

/-! ## Data model -/

/-- A graph-structured batch: `torch_geometric` `Data`/`Batch` with node
feature matrix `x` (one row per node), `edge_index`, the per-node graph
assignment vector `batch`, and per-graph labels `y`. -/
structure BatchGraph where
  x : List (List ℚ)
  edge_index : List (ℕ × ℕ)
  batch : List ℕ
  y : List Bool
deriving DecidableEq

/-- A flat batch: the `(features, labels)` tuple yielded by a plain
torch dataloader; `x` has one row per sample. -/
structure BatchFlat where
  x : List (List ℚ)
  y : List Bool
deriving DecidableEq

/-- A batch is either graph-structured or flat. -/
inductive BatchData where
  | graph : BatchGraph → BatchData
  | flat : BatchFlat → BatchData
deriving DecidableEq

/-- The six per-phase buffer attributes of `BinaryLitModel`.  `none`
models an attribute that is currently not set on the object (deleted or
never assigned); `some l` models a 1-d tensor holding `l`. -/
structure BufState where
  yTrainTrue : Option (List Bool)
  yTrainScore : Option (List ℚ)
  yValidTrue : Option (List Bool)
  yValidScore : Option (List ℚ)
  yTestTrue : Option (List Bool)
  yTestScore : Option (List ℚ)
deriving DecidableEq

/-- One call to `self.log`: metric name, scalar value, and the
`batch_size` argument when one was passed. -/
structure LogEntry where
  name : String
  value : ℚ
  batchSize : Option ℕ
deriving DecidableEq

/-- Full mutable state of a `BinaryLitModel` object, plus the write-only
stream of emitted log calls. -/
structure LitState where
  startTime : Option ℚ
  endTime : Option ℚ
  bufs : BufState
  logs : List LogEntry
deriving DecidableEq

/-- A freshly constructed model: no buffer attribute set yet. -/
def initBufState : BufState :=
  ⟨none, none, none, none, none, none⟩

/-- A freshly constructed model with an empty log stream. -/
def initLitState : LitState :=
  ⟨none, none, initBufState, []⟩

/-! ## BinaryLitModel.forward (module_training.py lines 28-56) -/

/-- `y_pred = x > 0` (line 40): the decision threshold fixed at zero. -/
def y_pred (x : List ℚ) : List Bool :=
  x.map fun v => decide (0 < v)

/-- `acc = (y_pred == y_true).float().mean()` (line 42): the fraction of
predicted labels equal to true labels.  (On an empty batch torch yields
NaN; here the rational division gives the junk value 0 instead — no claim
touches that case.) -/
def accuracy (x : List ℚ) (yTrue : List Bool) : ℚ :=
  (((y_pred x).zip yTrue).countP fun q => q.1 == q.2 : ℕ) / (x.length : ℚ)

/-- `torch.cat((buf, xs))` where `buf` is a possibly-unset attribute. -/
def catBuf {α : Type} (buf : Option (List α)) (xs : List α) : Option (List α) :=
  match buf with
  | none => none
  | some b => some (b ++ xs)

/-- Lines 37-56 of `forward`, after the wrapped model has produced the
squeezed score vector `x`: the loss/accuracy computation and the
per-phase buffer append.  `lossFn` stands for the numeric value of
`BCEWithLogitsLoss`, whose shape check (target size must equal input
size, raising `ValueError` otherwise) is embedded as the outer guard; it
runs at line 41, before any buffer is touched.  The two `torch.cat`
assignments of a phase run in order, so if the true-label buffer is set
but the score buffer is not, the first assignment has already happened
when the `AttributeError` of the second is raised. -/
def forwardEval (σ : ℚ → ℚ) (lossFn : List ℚ → List Bool → ℚ)
    (x : List ℚ) (yTrue : List Bool) (mode : String) (s : BufState) :
    Except String (ℚ × ℚ) × BufState :=
  if x.length = yTrue.length then
    let loss := lossFn x yTrue
    let acc := accuracy x yTrue
    let yScore := x.map σ
    if mode = "train" then
      match s.yTrainTrue with
      | none => (.error "AttributeError: y_train_true_buffer", s)
      | some bt =>
        let s₁ : BufState := { s with yTrainTrue := some (bt ++ yTrue) }
        match s₁.yTrainScore with
        | none => (.error "AttributeError: y_train_score_buffer", s₁)
        | some bv => (.ok (loss, acc), { s₁ with yTrainScore := some (bv ++ yScore) })
    else if mode = "valid" then
      match s.yValidTrue with
      | none => (.error "AttributeError: y_valid_true_buffer", s)
      | some bt =>
        let s₁ : BufState := { s with yValidTrue := some (bt ++ yTrue) }
        match s₁.yValidScore with
        | none => (.error "AttributeError: y_valid_score_buffer", s₁)
        | some bv => (.ok (loss, acc), { s₁ with yValidScore := some (bv ++ yScore) })
    else if mode = "test" then
      match s.yTestTrue with
      | none => (.error "AttributeError: y_test_true_buffer", s)
      | some bt =>
        let s₁ : BufState := { s with yTestTrue := some (bt ++ yTrue) }
        match s₁.yTestScore with
        | none => (.error "AttributeError: y_test_score_buffer", s₁)
        | some bv => (.ok (loss, acc), { s₁ with yTestScore := some (bv ++ yScore) })
    else
      (.ok (loss, acc), s)
  else
    (.error "ValueError: Target size must be the same as input size", s)

/-- `BinaryLitModel.forward` (lines 28-56): dispatch on `self.graph`,
invoke the wrapped model (`modelG` for graph input, `modelF` for flat
input, both standing for `self.model` followed by the `squeeze`), then
run the shared evaluation path.  A graph/flat mismatch between the flag
and the data raises when the duck-typed attribute access or tuple
unpacking fails. -/
def forward (σ : ℚ → ℚ) (lossFn : List ℚ → List Bool → ℚ)
    (modelG : List (List ℚ) → List (ℕ × ℕ) → List ℕ → List ℚ)
    (modelF : List (List ℚ) → List ℚ)
    (graph : Bool) (data : BatchData) (mode : String) (s : BufState) :
    Except String (ℚ × ℚ) × BufState :=
  match graph, data with
  | true, .graph g => forwardEval σ lossFn (modelG g.x g.edge_index g.batch) g.y mode s
  | true, .flat _ => (.error "AttributeError: tuple object has no attribute x", s)
  | false, .flat f => forwardEval σ lossFn (modelF f.x) f.y mode s
  | false, .graph _ => (.error "TypeError: cannot unpack Data object", s)

/-! ## Per-step logging (lines 75-80, 92-95, 107-110) -/

/-- `batch_size = len(data.x) if self.graph is True else len(data[0])`
(lines 76, 93, 108).  In graph mode `data.x` is the node feature matrix,
so its length is the total number of nodes of the batch; in flat mode
`data[0]` is the per-sample feature tensor, so its length is the number
of samples. -/
def batch_size (graph : Bool) (data : BatchData) : Except String ℕ :=
  match graph, data with
  | true, .graph g => .ok g.x.length
  | true, .flat _ => .error "AttributeError: tuple object has no attribute x"
  | false, .flat f => .ok f.x.length
  | false, .graph _ => .error "TypeError: Data object is not subscriptable by int"

/-- `training_step` (lines 75-80): compute `batch_size`, run `forward`
with mode `"train"`, log `train_loss` and `train_acc` with that
`batch_size`, return the loss. -/
def training_step (σ : ℚ → ℚ) (lossFn : List ℚ → List Bool → ℚ)
    (modelG : List (List ℚ) → List (ℕ × ℕ) → List ℕ → List ℚ)
    (modelF : List (List ℚ) → List ℚ)
    (graph : Bool) (data : BatchData) (s : LitState) :
    Except String ℚ × LitState :=
  match batch_size graph data with
  | .error e => (.error e, s)
  | .ok bs =>
    match forward σ lossFn modelG modelF graph data "train" s.bufs with
    | (.error e, b) => (.error e, { s with bufs := b })
    | (.ok (loss, acc), b) =>
      (.ok loss,
        { s with bufs := b,
                 logs := s.logs ++ [⟨"train_loss", loss, some bs⟩, ⟨"train_acc", acc, some bs⟩] })

/-- `validation_step` (lines 92-95): run `forward` with mode `"valid"`,
log only `valid_acc`, return nothing. -/
def validation_step (σ : ℚ → ℚ) (lossFn : List ℚ → List Bool → ℚ)
    (modelG : List (List ℚ) → List (ℕ × ℕ) → List ℕ → List ℚ)
    (modelF : List (List ℚ) → List ℚ)
    (graph : Bool) (data : BatchData) (s : LitState) :
    Except String Unit × LitState :=
  match batch_size graph data with
  | .error e => (.error e, s)
  | .ok bs =>
    match forward σ lossFn modelG modelF graph data "valid" s.bufs with
    | (.error e, b) => (.error e, { s with bufs := b })
    | (.ok (_, acc), b) =>
      (.ok (), { s with bufs := b, logs := s.logs ++ [⟨"valid_acc", acc, some bs⟩] })

/-- `test_step` (lines 107-110): run `forward` with mode `"test"`, log
only `test_acc`, return nothing. -/
def test_step (σ : ℚ → ℚ) (lossFn : List ℚ → List Bool → ℚ)
    (modelG : List (List ℚ) → List (ℕ × ℕ) → List ℕ → List ℚ)
    (modelF : List (List ℚ) → List ℚ)
    (graph : Bool) (data : BatchData) (s : LitState) :
    Except String Unit × LitState :=
  match batch_size graph data with
  | .error e => (.error e, s)
  | .ok bs =>
    match forward σ lossFn modelG modelF graph data "test" s.bufs with
    | (.error e, b) => (.error e, { s with bufs := b })
    | (.ok (_, acc), b) =>
      (.ok (), { s with bufs := b, logs := s.logs ++ [⟨"test_acc", acc, some bs⟩] })

/-! ## Epoch lifecycle hooks (lines 61-73, 82-90, 97-105) -/

/-- `on_train_epoch_start` (lines 61-64): record the start time and set
both train buffers to fresh empty tensors. -/
def on_train_epoch_start (t : ℚ) (s : LitState) : LitState :=
  { s with startTime := some t,
           bufs := { s.bufs with yTrainTrue := some [], yTrainScore := some [] } }

/-- `metrics.roc_auc_score(self.y_train_true_buffer,
self.y_train_score_buffer)` (line 69): the epoch-end aggregation over the
train buffers, raising `AttributeError` when a buffer attribute is
unset. -/
def trainAggregate (s : BufState) : Except String ℚ :=
  match s.yTrainTrue, s.yTrainScore with
  | some yt, some ys => roc_auc_score yt ys
  | _, _ => .error "AttributeError: train buffer not set"

/-- `on_train_epoch_end` (lines 66-73): record the end time, compute the
elapsed wall-time, aggregate the train buffers into a ROC-AUC, log
`epoch_time` and `train_roc_auc`, then delete both train buffers.  Any
failure (unset start time, unset buffer, or the aggregation error)
propagates and nothing is logged. -/
def on_train_epoch_end (t : ℚ) (s : LitState) : Except String LitState :=
  match s.startTime with
  | none => .error "AttributeError: start_time"
  | some st =>
    match trainAggregate s.bufs with
    | .error e => .error e
    | .ok auc =>
      .ok { startTime := s.startTime, endTime := some t,
            bufs := { s.bufs with yTrainTrue := none, yTrainScore := none },
            logs := s.logs ++ [⟨"epoch_time", t - st, none⟩, ⟨"train_roc_auc", auc, none⟩] }

/-- `on_validation_epoch_start` (lines 82-84): set both validation
buffers to fresh empty tensors. -/
def on_validation_epoch_start (s : LitState) : LitState :=
  { s with bufs := { s.bufs with yValidTrue := some [], yValidScore := some [] } }

/-- Line 87: the epoch-end aggregation over the validation buffers. -/
def validAggregate (s : BufState) : Except String ℚ :=
  match s.yValidTrue, s.yValidScore with
  | some yt, some ys => roc_auc_score yt ys
  | _, _ => .error "AttributeError: valid buffer not set"

/-- `on_validation_epoch_end` (lines 86-90): aggregate the validation
buffers, log `val_roc_auc` (no wall-time), delete both buffers. -/
def on_validation_epoch_end (s : LitState) : Except String LitState :=
  match validAggregate s.bufs with
  | .error e => .error e
  | .ok auc =>
    .ok { s with bufs := { s.bufs with yValidTrue := none, yValidScore := none },
                 logs := s.logs ++ [⟨"val_roc_auc", auc, none⟩] }

/-- `on_test_epoch_start` (lines 97-99): set both test buffers to fresh
empty tensors. -/
def on_test_epoch_start (s : LitState) : LitState :=
  { s with bufs := { s.bufs with yTestTrue := some [], yTestScore := some [] } }

/-- Line 102: the epoch-end aggregation over the test buffers. -/
def testAggregate (s : BufState) : Except String ℚ :=
  match s.yTestTrue, s.yTestScore with
  | some yt, some ys => roc_auc_score yt ys
  | _, _ => .error "AttributeError: test buffer not set"

/-- `on_test_epoch_end` (lines 101-105): aggregate the test buffers, log
`test_roc_auc` (no wall-time), delete both buffers. -/
def on_test_epoch_end (s : LitState) : Except String LitState :=
  match testAggregate s.bufs with
  | .error e => .error e
  | .ok auc =>
    .ok { s with bufs := { s.bufs with yTestTrue := none, yTestScore := none },
                 logs := s.logs ++ [⟨"test_roc_auc", auc, none⟩] }

/-- Running the evaluation path of `forward` over a sequence of batches
within one phase-epoch; each batch is a (true labels, raw scores) pair
and only the buffer state is threaded. -/
def runBatches (σ : ℚ → ℚ) (lossFn : List ℚ → List Bool → ℚ)
    (mode : String) (batches : List (List Bool × List ℚ)) (s : BufState) : BufState :=
  batches.foldl (fun st b => (forwardEval σ lossFn b.2 b.1 mode st).2) s

/-! ## Train driver checkpoint resolution (a.py lines 270-277) -/

/-- Python `str.endswith`: the character-level suffix test. -/
def endsWith (s post : String) : Bool :=
  post.data.isSuffixOf s.data

/-- Checkpoint resolution of `train` in `a.py` (lines 270-277):

    try:
        ckpt_dir = f"result/.../checkpoints"
        for _file in os.listdir(ckpt_dir):
            if _file.endswith("ckpt"):
                ckpt_path = f"..."
    except:
        ckpt_path = None

`listing` is `none` when `os.listdir` raises (directory missing), and
`some files` when it returns `files`.  The result models the local
variable `ckpt_path` at the later `trainer.fit(..., ckpt_path=ckpt_path)`
call: `some v` means the variable was bound to `v` (with `v = none` for
Python's `None`), while the outer `none` means the variable was never
assigned, so the `trainer.fit` line raises `UnboundLocalError`. -/
def resolve_ckpt_path (ckptDir : String) (listing : Option (List String)) :
    Option (Option String) :=
  match listing with
  | none => some none
  | some files =>
    (files.foldl
      (fun acc f => if endsWith f "ckpt" then some (ckptDir ++ "/" ++ f) else acc)
      none).map some

/-! ## Helper lemmas -/

/-- The Mann-Whitney value only depends on the multiset of (label, score)
pairs. -/
theorem aucPairs_perm {p q : List (Bool × ℚ)} (h : p.Perm q) : aucPairs p = aucPairs q := by
  have hpos : (posScores p).Perm (posScores q) := by
    unfold posScores
    exact (h.filter _).map _
  have hneg : (negScores p).Perm (negScores q) := by
    unfold negScores
    exact (h.filter _).map _
  unfold aucPairs
  rw [hpos.length_eq, hneg.length_eq]
  congr 1
  calc ((posScores p).map fun a => ((negScores p).map fun n => cmpHalf a n).sum).sum
      = ((posScores p).map fun a => ((negScores q).map fun n => cmpHalf a n).sum).sum := by
        refine congrArg List.sum (List.map_congr_left fun a _ => ?_)
        exact (hneg.map fun n => cmpHalf a n).sum_eq
    _ = ((posScores q).map fun a => ((negScores q).map fun n => cmpHalf a n).sum).sum :=
        (hpos.map _).sum_eq

/-- `roc_auc_score` only depends on the multiset of (label, score) pairs
of its two equal-length inputs. -/
theorem roc_auc_perm {L₁ L₂ : List Bool} {S₁ S₂ : List ℚ}
    (h₁ : L₁.length = S₁.length) (h₂ : L₂.length = S₂.length)
    (hp : (L₁.zip S₁).Perm (L₂.zip S₂)) :
    roc_auc_score L₁ S₁ = roc_auc_score L₂ S₂ := by
  have hL₁ : (L₁.zip S₁).map Prod.fst = L₁ := List.map_fst_zip _ _ h₁.le
  have hL₂ : (L₂.zip S₂).map Prod.fst = L₂ := List.map_fst_zip _ _ h₂.le
  have hmem : (true ∈ L₁ ∧ false ∈ L₁) ↔ (true ∈ L₂ ∧ false ∈ L₂) := by
    rw [← hL₁, ← hL₂]
    exact and_congr (hp.map Prod.fst).mem_iff (hp.map Prod.fst).mem_iff
  unfold roc_auc_score
  rw [if_pos h₁, if_pos h₂]
  by_cases hc : true ∈ L₁ ∧ false ∈ L₁
  · rw [if_pos hc, if_pos (hmem.mp hc)]
    exact congrArg Except.ok (aucPairs_perm hp)
  · rw [if_neg hc, if_neg (fun hh => hc (hmem.mpr hh))]

/-- Zipping the flattened labels with the flattened σ-transformed scores
is the flattening of the per-batch zips, provided each batch is
well-formed. -/
theorem zip_flatten_eq (σ : ℚ → ℚ) (batches : List (List Bool × List ℚ))
    (h : ∀ b ∈ batches, (b.2).length = (b.1).length) :
    ((batches.map Prod.fst).flatten).zip (((batches.map Prod.snd).flatten).map σ)
      = (batches.map fun b => b.1.zip (b.2.map σ)).flatten := by
  induction batches with
  | nil => simp
  | cons b rest ih =>
    simp only [List.map_cons, List.flatten_cons, List.map_append]
    rw [List.zip_append (by simpa using (h b (List.mem_cons_self b rest)).symm)]
    rw [ih (fun x hx => h x (List.mem_cons_of_mem b hx))]

/-- The flattened labels and the flattened σ-transformed scores have
equal lengths, provided each batch is well-formed. -/
theorem flatten_length_eq (σ : ℚ → ℚ) (batches : List (List Bool × List ℚ))
    (h : ∀ b ∈ batches, (b.2).length = (b.1).length) :
    ((batches.map Prod.fst).flatten).length
      = (((batches.map Prod.snd).flatten).map σ).length := by
  induction batches with
  | nil => simp
  | cons b rest ih =>
    have hb := h b (List.mem_cons_self b rest)
    have hr := ih (fun x hx => h x (List.mem_cons_of_mem b hx))
    simp only [List.map_cons, List.flatten_cons, List.length_append, List.length_map] at *
    omega

/-- The evaluation path of `forward` on a well-formed batch in train
mode, with both train buffers set, succeeds and appends to exactly
those two buffers. -/
theorem forwardEval_train_ok (σ : ℚ → ℚ) (lossFn : List ℚ → List Bool → ℚ)
    (x : List ℚ) (y : List Bool) (s : BufState)
    (hxy : x.length = y.length) (u : List Bool) (v : List ℚ)
    (hu : s.yTrainTrue = some u) (hv : s.yTrainScore = some v) :
    forwardEval σ lossFn x y "train" s
      = (.ok (lossFn x y, accuracy x y),
         { s with yTrainTrue := some (u ++ y), yTrainScore := some (v ++ x.map σ) }) := by
  unfold forwardEval
  rw [if_pos hxy, if_pos rfl, hu]
  dsimp only
  rw [hv]

/-- Folding the evaluation path of `forward` in train mode over
well-formed batches appends their labels and σ-transformed scores, in
order, to the train buffers, and changes nothing else. -/
theorem runBatches_train (σ : ℚ → ℚ) (lossFn : List ℚ → List Bool → ℚ) :
    ∀ (batches : List (List Bool × List ℚ)) (s : BufState) (u : List Bool) (v : List ℚ),
      s.yTrainTrue = some u → s.yTrainScore = some v →
      (∀ b ∈ batches, (b.2).length = (b.1).length) →
      runBatches σ lossFn "train" batches s =
        { s with yTrainTrue := some (u ++ (batches.map Prod.fst).flatten),
                 yTrainScore := some (v ++ ((batches.map Prod.snd).flatten).map σ) } := by
  intro batches
  induction batches with
  | nil =>
    intro s u v hu hv _
    obtain ⟨f₁, f₂, f₃, f₄, f₅, f₆⟩ := s
    simp only [runBatches, List.foldl_nil, List.map_nil, List.flatten_nil, List.append_nil]
    simp_all
  | cons b rest ih =>
    intro s u v hu hv hlen
    have hb : (b.2).length = (b.1).length := hlen b (List.mem_cons_self b rest)
    have hstep : (forwardEval σ lossFn b.2 b.1 "train" s).2 =
        { s with yTrainTrue := some (u ++ b.1), yTrainScore := some (v ++ b.2.map σ) } := by
      rw [forwardEval_train_ok σ lossFn b.2 b.1 s hb u v hu hv]
    have hrun : runBatches σ lossFn "train" (b :: rest) s =
        runBatches σ lossFn "train" rest ((forwardEval σ lossFn b.2 b.1 "train" s).2) := rfl
    rw [hrun, hstep,
      ih _ (u ++ b.1) (v ++ b.2.map σ) rfl rfl (fun x hx => hlen x (List.mem_cons_of_mem b hx))]
    simp [List.append_assoc]

/-! ## Claim theorems -/

/-- C1: checkpoint resolution in the train driver.  The claim asserts
totality over directory states: missing directory means fresh start
(`ckpt_path = None`), at least one file ending in `ckpt` means resume
from the last such file in enumeration order, and an existing directory
with no such file (including an empty directory) also means fresh start.
The last branch is refuted: there the loop never assigns `ckpt_path` and
the `except` clause does not fire, so `ckpt_path` is unbound (result
`none` here) and the later `trainer.fit(..., ckpt_path=ckpt_path)` line
raises `UnboundLocalError` instead of starting fresh.  The first two
conjuncts exhibit the failing inputs; the remaining three confirm the
other branches of the claim. -/
theorem c1_checkpoint_resolution :
    resolve_ckpt_path "result/g_eflow_QFCGNN/run0/checkpoints" (some ["events.out"]) = none
    ∧ resolve_ckpt_path "result/g_eflow_QFCGNN/run0/checkpoints" (some []) = none
    ∧ resolve_ckpt_path "result/g_eflow_QFCGNN/run0/checkpoints" none = some none
    ∧ resolve_ckpt_path "result/g_eflow_QFCGNN/run0/checkpoints" (some ["last.ckpt"])
        = some (some "result/g_eflow_QFCGNN/run0/checkpoints/last.ckpt")
    ∧ resolve_ckpt_path "result/g_eflow_QFCGNN/run0/checkpoints" (some ["a.ckpt", "b.ckpt"])
        = some (some "result/g_eflow_QFCGNN/run0/checkpoints/b.ckpt") :=
  ⟨rfl, rfl, rfl, rfl, rfl⟩

/-- C2: for every phase tag and every pair of input sequences, a batch
whose score and label sequences differ in length makes the evaluation
path of `forward` fail (the `BCEWithLogitsLoss` shape check at line 41),
and it fails before either buffer sequence of any phase has been
mutated: the post-state equals the pre-state. -/
theorem c2_append_length_mismatch_atomic (σ : ℚ → ℚ) (lossFn : List ℚ → List Bool → ℚ)
    (x : List ℚ) (yTrue : List Bool) (mode : String) (s : BufState)
    (h : x.length ≠ yTrue.length) :
    (forwardEval σ lossFn x yTrue mode s).1
        = .error "ValueError: Target size must be the same as input size"
    ∧ (forwardEval σ lossFn x yTrue mode s).2 = s := by
  unfold forwardEval
  rw [if_neg h]
  exact ⟨rfl, rfl⟩

/-- Witness for C2 at the concrete mismatched batch ([1, 2], [true]). -/
theorem c2_witness :
    ([(1 : ℚ), 2].length ≠ [true].length)
    ∧ (forwardEval id (fun _ _ => 0) [1, 2] [true] "train" initBufState).1
        = .error "ValueError: Target size must be the same as input size"
    ∧ (forwardEval id (fun _ _ => 0) [1, 2] [true] "train" initBufState).2 = initBufState :=
  ⟨by decide,
   c2_append_length_mismatch_atomic id (fun _ _ => 0) [1, 2] [true] "train" initBufState
    (by decide)⟩

/-- C3: for every phase, the end-of-epoch aggregation fails (the hook
returns an error that propagates, never an `ok` value such as 0.5, 0 or
NaN) whenever the accumulated true-label buffer of that phase holds
fewer than two distinct label classes; this covers a single-class buffer
and the empty buffer left by a reset with zero appends. -/
theorem c3_single_class_aggregation_fails (t : ℚ) (s : LitState) :
    (∀ yt, s.bufs.yTrainTrue = some yt → ¬(true ∈ yt ∧ false ∈ yt) →
      (on_train_epoch_end t s).isOk = false)
    ∧ (∀ yt, s.bufs.yValidTrue = some yt → ¬(true ∈ yt ∧ false ∈ yt) →
      (on_validation_epoch_end s).isOk = false)
    ∧ (∀ yt, s.bufs.yTestTrue = some yt → ¬(true ∈ yt ∧ false ∈ yt) →
      (on_test_epoch_end s).isOk = false) := by
  have hroc : ∀ (yt : List Bool) (ys : List ℚ), ¬(true ∈ yt ∧ false ∈ yt) →
      ∃ e, roc_auc_score yt ys = .error e := by
    intro yt ys hcls
    unfold roc_auc_score
    by_cases hl : yt.length = ys.length
    · rw [if_pos hl, if_neg hcls]
      exact ⟨_, rfl⟩
    · rw [if_neg hl]
      exact ⟨_, rfl⟩
  refine ⟨?_, ?_, ?_⟩
  · intro yt hyt hcls
    unfold on_train_epoch_end trainAggregate
    cases hst : s.startTime with
    | none => rfl
    | some st =>
      rw [hyt]
      cases hsc : s.bufs.yTrainScore with
      | none => rfl
      | some ys =>
        obtain ⟨e, he⟩ := hroc yt ys hcls
        dsimp only
        rw [he]
        rfl
  · intro yt hyt hcls
    unfold on_validation_epoch_end validAggregate
    rw [hyt]
    cases hsc : s.bufs.yValidScore with
    | none => rfl
    | some ys =>
      obtain ⟨e, he⟩ := hroc yt ys hcls
      dsimp only
      rw [he]
      rfl
  · intro yt hyt hcls
    unfold on_test_epoch_end testAggregate
    rw [hyt]
    cases hsc : s.bufs.yTestScore with
    | none => rfl
    | some ys =>
      obtain ⟨e, he⟩ := hroc yt ys hcls
      dsimp only
      rw [he]
      rfl

/-- Witness for C3: the single-class epoch with true labels
[1, 1, 1, 1] of the spec, and the empty buffer of a reset followed by
zero appends, both make the train epoch-end hook fail. -/
theorem c3_witness :
    (on_train_epoch_end 1 (⟨some 0, none,
        ⟨some [true, true, true, true], some [1, 1, 1, 1], none, none, none, none⟩,
        []⟩ : LitState)).isOk = false
    ∧ (on_train_epoch_end 1 (⟨some 0, none,
        ⟨some [], some [], none, none, none, none⟩, []⟩ : LitState)).isOk = false :=
  ⟨(c3_single_class_aggregation_fails 1 _).1 [true, true, true, true] rfl (by decide),
   (c3_single_class_aggregation_fails 1 _).1 [] rfl (by decide)⟩

/-- C5: for the batch with true labels [1, 0, 1, 0] and raw scores
[2.0, -1.0, 0.5, -0.5], the batch evaluator produces predicted labels
[1, 0, 1, 0] (each predicted label is score > 0, line 40), accuracy 1
(line 42), and the ROC-AUC of the sigmoid-transformed scores against the
labels is 1.  `torch.sigmoid` is modelled by an arbitrary strictly
monotone transform σ. -/
theorem c5_end_to_end_batch (σ : ℚ → ℚ) (hσ : StrictMono σ) :
    y_pred [2, -1, 1/2, -1/2] = [true, false, true, false]
    ∧ accuracy [2, -1, 1/2, -1/2] [true, false, true, false] = 1
    ∧ roc_auc_score [true, false, true, false] ([2, -1, 1/2, -1/2].map σ) = .ok 1 := by
  refine ⟨by norm_num [y_pred], by norm_num [accuracy, y_pred], ?_⟩
  have h1 : σ (-1) < σ 2 := hσ (by norm_num)
  have h2 : σ (-(1/2)) < σ 2 := hσ (by norm_num)
  have h3 : σ (-1) < σ (1/2) := hσ (by norm_num)
  have h4 : σ (-(1/2)) < σ (1/2) := hσ (by norm_num)
  norm_num [roc_auc_score, aucPairs, posScores, negScores, cmpHalf, h1, h2, h3, h4]

/-- Witness for C5: the identity transform is strictly monotone, and the
conclusion holds for it. -/
theorem c5_witness :
    StrictMono (id : ℚ → ℚ)
    ∧ (y_pred [2, -1, 1/2, -1/2] = [true, false, true, false]
      ∧ accuracy [2, -1, 1/2, -1/2] [true, false, true, false] = 1
      ∧ roc_auc_score [true, false, true, false] ([2, -1, 1/2, -1/2].map id) = .ok 1) :=
  ⟨strictMono_id, c5_end_to_end_batch id strictMono_id⟩

/-- C4: within one phase-epoch, the epoch-end aggregate over the train
buffers filled by the batches B1..Bn equals the ROC-AUC of the in-order
concatenation of their (label, sigmoid-score) pairs, and the aggregate
is invariant under permuting the order in which the batches were
appended. -/
theorem c4_aggregate_concat_perm (σ : ℚ → ℚ) (lossFn : List ℚ → List Bool → ℚ)
    (batches batches' : List (List Bool × List ℚ)) (s : BufState)
    (hlen : ∀ b ∈ batches, (b.2).length = (b.1).length)
    (hperm : batches.Perm batches')
    (ht : s.yTrainTrue = some []) (hs : s.yTrainScore = some []) :
    trainAggregate (runBatches σ lossFn "train" batches s)
      = roc_auc_score ((batches.map Prod.fst).flatten)
          (((batches.map Prod.snd).flatten).map σ)
    ∧ trainAggregate (runBatches σ lossFn "train" batches' s)
      = trainAggregate (runBatches σ lossFn "train" batches s) := by
  have hlen' : ∀ b ∈ batches', (b.2).length = (b.1).length :=
    fun b hb => hlen b (hperm.symm.subset hb)
  rw [runBatches_train σ lossFn batches s [] [] ht hs hlen,
    runBatches_train σ lossFn batches' s [] [] ht hs hlen']
  constructor
  · simp [trainAggregate]
  · simp only [trainAggregate, List.nil_append]
    refine roc_auc_perm (flatten_length_eq σ batches' hlen') (flatten_length_eq σ batches hlen)
      ?_
    rw [zip_flatten_eq σ batches' hlen', zip_flatten_eq σ batches hlen]
    exact ((hperm.symm.map _).flatten)

/-- Witness for C4 with two one-sample batches appended in both
orders. -/
theorem c4_witness :
    trainAggregate (runBatches id (fun _ _ => 0) "train" [([true], [1]), ([false], [0])]
        ⟨some [], some [], none, none, none, none⟩)
      = roc_auc_score (([([true], [1]), ([false], [0])].map Prod.fst).flatten)
          ((([([true], [1]), ([false], [0])].map Prod.snd).flatten).map id)
    ∧ trainAggregate (runBatches id (fun _ _ => 0) "train" [([false], [0]), ([true], [1])]
        ⟨some [], some [], none, none, none, none⟩)
      = trainAggregate (runBatches id (fun _ _ => 0) "train" [([true], [1]), ([false], [0])]
        ⟨some [], some [], none, none, none, none⟩) :=
  c4_aggregate_concat_perm id (fun _ _ => 0)
    [([true], [1]), ([false], [0])] [([false], [0]), ([true], [1])]
    ⟨some [], some [], none, none, none, none⟩
    (by decide) (List.Perm.swap ([false], [0]) ([true], [1]) []) rfl rfl

/-- C6: at phase-epoch end the computed ROC-AUC is logged under the
phase-qualified name (`train_roc_auc`, `val_roc_auc`, `test_roc_auc`),
and elapsed wall-time (`epoch_time`) is logged at epoch end for the
train phase only: the validation and test hooks extend the log stream by
exactly one entry, their ROC-AUC. -/
theorem c6_epoch_end_logging (t st : ℚ) (s : LitState) :
    (∀ yt ys a s₁, s.startTime = some st → s.bufs.yTrainTrue = some yt →
        s.bufs.yTrainScore = some ys → roc_auc_score yt ys = .ok a →
        on_train_epoch_end t s = .ok s₁ →
        s₁.logs = s.logs ++ [⟨"epoch_time", t - st, none⟩, ⟨"train_roc_auc", a, none⟩])
    ∧ (∀ yt ys a s₁, s.bufs.yValidTrue = some yt → s.bufs.yValidScore = some ys →
        roc_auc_score yt ys = .ok a → on_validation_epoch_end s = .ok s₁ →
        s₁.logs = s.logs ++ [⟨"val_roc_auc", a, none⟩])
    ∧ (∀ yt ys a s₁, s.bufs.yTestTrue = some yt → s.bufs.yTestScore = some ys →
        roc_auc_score yt ys = .ok a → on_test_epoch_end s = .ok s₁ →
        s₁.logs = s.logs ++ [⟨"test_roc_auc", a, none⟩]) := by
  refine ⟨?_, ?_, ?_⟩
  · intro yt ys a s₁ hst hyt hys hroc hok
    unfold on_train_epoch_end trainAggregate at hok
    rw [hst, hyt, hys] at hok
    dsimp only at hok
    rw [hroc] at hok
    dsimp only at hok
    simp only [Except.ok.injEq] at hok
    subst hok
    rfl
  · intro yt ys a s₁ hyt hys hroc hok
    unfold on_validation_epoch_end validAggregate at hok
    rw [hyt, hys] at hok
    dsimp only at hok
    rw [hroc] at hok
    dsimp only at hok
    simp only [Except.ok.injEq] at hok
    subst hok
    rfl
  · intro yt ys a s₁ hyt hys hroc hok
    unfold on_test_epoch_end testAggregate at hok
    rw [hyt, hys] at hok
    dsimp only at hok
    rw [hroc] at hok
    dsimp only at hok
    simp only [Except.ok.injEq] at hok
    subst hok
    rfl

/-- A concrete state whose three phase buffers each hold the two-class
data labels [1, 0] with scores [1, 0]. -/
def twoClassState : LitState :=
  ⟨some 0, none,
   ⟨some [true, false], some [1, 0], some [true, false], some [1, 0],
    some [true, false], some [1, 0]⟩, []⟩

/-- Witness for C6: the train epoch-end hook on `twoClassState` logs
`epoch_time` and `train_roc_auc`. -/
theorem c6_witness :
    on_train_epoch_end 5 twoClassState
      = .ok (⟨some 0, some 5,
          ⟨none, none, some [true, false], some [1, 0], some [true, false], some [1, 0]⟩,
          [⟨"epoch_time", 5, none⟩, ⟨"train_roc_auc", 1, none⟩]⟩ : LitState)
    ∧ ([⟨"epoch_time", 5, none⟩, ⟨"train_roc_auc", 1, none⟩] : List LogEntry)
      = twoClassState.logs ++ [⟨"epoch_time", 5 - 0, none⟩, ⟨"train_roc_auc", 1, none⟩] := by
  have hok : on_train_epoch_end 5 twoClassState
      = .ok (⟨some 0, some 5,
          ⟨none, none, some [true, false], some [1, 0], some [true, false], some [1, 0]⟩,
          [⟨"epoch_time", 5, none⟩, ⟨"train_roc_auc", 1, none⟩]⟩ : LitState) := by
    simp [on_train_epoch_end, trainAggregate, roc_auc_score, aucPairs, posScores, negScores,
      cmpHalf, twoClassState]
  exact ⟨hok, (c6_epoch_end_logging 5 0 twoClassState).1 [true, false] [1, 0] 1 _ rfl rfl rfl
    (by simp [roc_auc_score, aucPairs, posScores, negScores, cmpHalf]) hok⟩

/-- C7: for every phase, the phase's metric buffer pair is created empty
at phase-epoch start (regardless of any earlier state, so no raw labels
or scores from a previous epoch survive into the new buffer), and a
successful phase-epoch end consumes the buffers into the aggregate and
then destroys them (both attributes deleted). -/
theorem c7_buffer_lifecycle (t u : ℚ) (s : LitState) :
    ((on_train_epoch_start t s).bufs.yTrainTrue = some []
      ∧ (on_train_epoch_start t s).bufs.yTrainScore = some [])
    ∧ ((on_validation_epoch_start s).bufs.yValidTrue = some []
      ∧ (on_validation_epoch_start s).bufs.yValidScore = some [])
    ∧ ((on_test_epoch_start s).bufs.yTestTrue = some []
      ∧ (on_test_epoch_start s).bufs.yTestScore = some [])
    ∧ (∀ s₁, on_train_epoch_end u s = .ok s₁ →
        s₁.bufs.yTrainTrue = none ∧ s₁.bufs.yTrainScore = none
          ∧ ∃ a, trainAggregate s.bufs = .ok a)
    ∧ (∀ s₁, on_validation_epoch_end s = .ok s₁ →
        s₁.bufs.yValidTrue = none ∧ s₁.bufs.yValidScore = none
          ∧ ∃ a, validAggregate s.bufs = .ok a)
    ∧ (∀ s₁, on_test_epoch_end s = .ok s₁ →
        s₁.bufs.yTestTrue = none ∧ s₁.bufs.yTestScore = none
          ∧ ∃ a, testAggregate s.bufs = .ok a) := by
  refine ⟨⟨rfl, rfl⟩, ⟨rfl, rfl⟩, ⟨rfl, rfl⟩, ?_, ?_, ?_⟩
  · intro s₁ hok
    unfold on_train_epoch_end at hok
    rcases hst : s.startTime with _ | st
    · rw [hst] at hok
      dsimp only at hok
      exact Except.noConfusion hok
    · rw [hst] at hok
      dsimp only at hok
      rcases hagg : trainAggregate s.bufs with e | a
      · rw [hagg] at hok
        dsimp only at hok
        exact Except.noConfusion hok
      · rw [hagg] at hok
        dsimp only at hok
        simp only [Except.ok.injEq] at hok
        subst hok
        exact ⟨rfl, rfl, a, rfl⟩
  · intro s₁ hok
    unfold on_validation_epoch_end at hok
    rcases hagg : validAggregate s.bufs with e | a
    · rw [hagg] at hok
      dsimp only at hok
      exact Except.noConfusion hok
    · rw [hagg] at hok
      dsimp only at hok
      simp only [Except.ok.injEq] at hok
      subst hok
      exact ⟨rfl, rfl, a, rfl⟩
  · intro s₁ hok
    unfold on_test_epoch_end at hok
    rcases hagg : testAggregate s.bufs with e | a
    · rw [hagg] at hok
      dsimp only at hok
      exact Except.noConfusion hok
    · rw [hagg] at hok
      dsimp only at hok
      simp only [Except.ok.injEq] at hok
      subst hok
      exact ⟨rfl, rfl, a, rfl⟩

/-- Witness for C7: every epoch start creates an empty train buffer,
and the successful train epoch end on `twoClassState` leaves both train
buffer attributes deleted. -/
theorem c7_witness :
    (on_train_epoch_start 0 initLitState).bufs.yTrainTrue = some []
    ∧ (⟨some 0, some 1,
        ⟨none, none, some [true, false], some [1, 0], some [true, false], some [1, 0]⟩,
        [⟨"epoch_time", 1, none⟩, ⟨"train_roc_auc", 1, none⟩]⟩ : LitState).bufs.yTrainTrue = none
    ∧ (⟨some 0, some 1,
        ⟨none, none, some [true, false], some [1, 0], some [true, false], some [1, 0]⟩,
        [⟨"epoch_time", 1, none⟩, ⟨"train_roc_auc", 1, none⟩]⟩ : LitState).bufs.yTrainScore
        = none := by
  have hok : on_train_epoch_end 1 twoClassState
      = .ok (⟨some 0, some 1,
          ⟨none, none, some [true, false], some [1, 0], some [true, false], some [1, 0]⟩,
          [⟨"epoch_time", 1, none⟩, ⟨"train_roc_auc", 1, none⟩]⟩ : LitState) := by
    simp [on_train_epoch_end, trainAggregate, roc_auc_score, aucPairs, posScores, negScores,
      cmpHalf, twoClassState]
  have h := (c7_buffer_lifecycle 0 1 twoClassState).2.2.2.1 _ hok
  exact ⟨(c7_buffer_lifecycle 0 1 initLitState).1.1, h.1, h.2.1⟩

/-- C8: appending a batch under one of the three recognized phase tags
mutates only that phase's pair of buffer sequences: the buffers of the
other two phases are unchanged by the invocation, on every path
(success or failure). -/
theorem c8_phase_frame (σ : ℚ → ℚ) (lossFn : List ℚ → List Bool → ℚ)
    (x : List ℚ) (y : List Bool) (s : BufState) :
    ((forwardEval σ lossFn x y "train" s).2.yValidTrue = s.yValidTrue
      ∧ (forwardEval σ lossFn x y "train" s).2.yValidScore = s.yValidScore
      ∧ (forwardEval σ lossFn x y "train" s).2.yTestTrue = s.yTestTrue
      ∧ (forwardEval σ lossFn x y "train" s).2.yTestScore = s.yTestScore)
    ∧ ((forwardEval σ lossFn x y "valid" s).2.yTrainTrue = s.yTrainTrue
      ∧ (forwardEval σ lossFn x y "valid" s).2.yTrainScore = s.yTrainScore
      ∧ (forwardEval σ lossFn x y "valid" s).2.yTestTrue = s.yTestTrue
      ∧ (forwardEval σ lossFn x y "valid" s).2.yTestScore = s.yTestScore)
    ∧ ((forwardEval σ lossFn x y "test" s).2.yTrainTrue = s.yTrainTrue
      ∧ (forwardEval σ lossFn x y "test" s).2.yTrainScore = s.yTrainScore
      ∧ (forwardEval σ lossFn x y "test" s).2.yValidTrue = s.yValidTrue
      ∧ (forwardEval σ lossFn x y "test" s).2.yValidScore = s.yValidScore) := by
  obtain ⟨bt, bv, vt, vv, tt, tv⟩ := s
  by_cases hxy : x.length = y.length
  · refine ⟨?_, ?_, ?_⟩
    · cases bt <;> cases bv <;> simp [forwardEval, hxy]
    · cases vt <;> cases vv <;> simp [forwardEval, hxy]
    · cases tt <;> cases tv <;> simp [forwardEval, hxy]
  · simp [forwardEval, hxy]

/-- C9: for every phase tag outside the recognized set, a well-formed
forward call still computes and returns the (loss, accuracy) pair,
raises no error, and appends to none of the three phase buffers: the
buffer state is returned unchanged. -/
theorem c9_unknown_mode_noop (σ : ℚ → ℚ) (lossFn : List ℚ → List Bool → ℚ)
    (x : List ℚ) (y : List Bool) (mode : String) (s : BufState)
    (h1 : mode ≠ "train") (h2 : mode ≠ "valid") (h3 : mode ≠ "test")
    (hlen : x.length = y.length) :
    forwardEval σ lossFn x y mode s = (.ok (lossFn x y, accuracy x y), s) := by
  unfold forwardEval
  rw [if_pos hlen, if_neg h1, if_neg h2, if_neg h3]

/-- Witness for C9 with the unknown tag "predict". -/
theorem c9_witness :
    ("predict" : String) ≠ "train"
    ∧ forwardEval id (fun _ _ => 0) [1] [true] "predict" initBufState
        = (.ok (0, accuracy [1] [true]), initBufState) :=
  ⟨by decide,
   c9_unknown_mode_noop id (fun _ _ => 0) [1] [true] "predict" initBufState
     (by decide) (by decide) (by decide) rfl⟩

/-- C10: the `batch_size` passed to the metric sink by the per-step
logging calls is `len(data.x)` in graph mode — the total number of nodes
of the batch, not the number of graphs/labels (the third conjunct shows
a 5-node batch with 2 labels reporting 5) — and the number of samples in
flat mode. -/
theorem c10_step_batch_size (σ : ℚ → ℚ) (lossFn : List ℚ → List Bool → ℚ)
    (modelG : List (List ℚ) → List (ℕ × ℕ) → List ℕ → List ℚ)
    (modelF : List (List ℚ) → List ℚ)
    (g : BatchGraph) (f : BatchFlat) (s : LitState) :
    batch_size true (.graph g) = .ok g.x.length
    ∧ batch_size false (.flat f) = .ok f.x.length
    ∧ batch_size true (.graph ⟨[[0], [0], [0], [0], [0]], [], [0, 0, 0, 1, 1], [true, false]⟩)
        = .ok 5
    ∧ (∀ l s₁, training_step σ lossFn modelG modelF true (.graph g) s = (.ok l, s₁) →
        s₁.logs.map (fun e => (e.name, e.batchSize))
          = s.logs.map (fun e => (e.name, e.batchSize))
            ++ [("train_loss", some g.x.length), ("train_acc", some g.x.length)])
    ∧ (∀ l s₁, training_step σ lossFn modelG modelF false (.flat f) s = (.ok l, s₁) →
        s₁.logs.map (fun e => (e.name, e.batchSize))
          = s.logs.map (fun e => (e.name, e.batchSize))
            ++ [("train_loss", some f.x.length), ("train_acc", some f.x.length)])
    ∧ (∀ s₁, validation_step σ lossFn modelG modelF true (.graph g) s = (.ok (), s₁) →
        s₁.logs.map (fun e => (e.name, e.batchSize))
          = s.logs.map (fun e => (e.name, e.batchSize)) ++ [("valid_acc", some g.x.length)])
    ∧ (∀ s₁, test_step σ lossFn modelG modelF true (.graph g) s = (.ok (), s₁) →
        s₁.logs.map (fun e => (e.name, e.batchSize))
          = s.logs.map (fun e => (e.name, e.batchSize)) ++ [("test_acc", some g.x.length)]) := by
  refine ⟨rfl, rfl, rfl, ?_, ?_, ?_, ?_⟩
  · intro l s₁ h
    unfold training_step batch_size forward at h
    dsimp only at h
    rcases hfe : forwardEval σ lossFn (modelG g.x g.edge_index g.batch) g.y "train" s.bufs
      with ⟨res, b⟩
    rw [hfe] at h
    cases res with
    | error e => simp at h
    | ok v =>
      obtain ⟨loss, acc⟩ := v
      dsimp only at h
      simp only [Prod.mk.injEq, Except.ok.injEq] at h
      obtain ⟨h1, h2⟩ := h
      subst h2
      simp
  · intro l s₁ h
    unfold training_step batch_size forward at h
    dsimp only at h
    rcases hfe : forwardEval σ lossFn (modelF f.x) f.y "train" s.bufs with ⟨res, b⟩
    rw [hfe] at h
    cases res with
    | error e => simp at h
    | ok v =>
      obtain ⟨loss, acc⟩ := v
      dsimp only at h
      simp only [Prod.mk.injEq, Except.ok.injEq] at h
      obtain ⟨h1, h2⟩ := h
      subst h2
      simp
  · intro s₁ h
    unfold validation_step batch_size forward at h
    dsimp only at h
    rcases hfe : forwardEval σ lossFn (modelG g.x g.edge_index g.batch) g.y "valid" s.bufs
      with ⟨res, b⟩
    rw [hfe] at h
    cases res with
    | error e => simp at h
    | ok v =>
      obtain ⟨loss, acc⟩ := v
      dsimp only at h
      simp only [Prod.mk.injEq] at h
      obtain ⟨h1, h2⟩ := h
      subst h2
      simp
  · intro s₁ h
    unfold test_step batch_size forward at h
    dsimp only at h
    rcases hfe : forwardEval σ lossFn (modelG g.x g.edge_index g.batch) g.y "test" s.bufs
      with ⟨res, b⟩
    rw [hfe] at h
    cases res with
    | error e => simp at h
    | ok v =>
      obtain ⟨loss, acc⟩ := v
      dsimp only at h
      simp only [Prod.mk.injEq] at h
      obtain ⟨h1, h2⟩ := h
      subst h2
      simp

/-- Witness for C10: a one-graph batch of 5 nodes with a single label
logs both per-step train metrics with batch size 5, the node count. -/
theorem c10_witness :
    training_step id (fun _ _ => 0) (fun _ _ _ => [1]) (fun _ => [1]) true
        (.graph ⟨[[0], [0], [0], [0], [0]], [], [0, 0, 0, 0, 0], [true]⟩)
        (on_train_epoch_start 0 initLitState)
      = (.ok 0, (⟨some 0, none, ⟨some [true], some [1], none, none, none, none⟩,
          [⟨"train_loss", 0, some 5⟩, ⟨"train_acc", 1, some 5⟩]⟩ : LitState))
    ∧ ([⟨"train_loss", 0, some 5⟩, ⟨"train_acc", (1 : ℚ), some 5⟩] : List LogEntry).map
        (fun e => (e.name, e.batchSize))
      = (on_train_epoch_start 0 initLitState).logs.map (fun e => (e.name, e.batchSize))
          ++ [("train_loss", some 5), ("train_acc", some 5)] := by
  have hok : training_step id (fun _ _ => 0) (fun _ _ _ => [1]) (fun _ => [1]) true
      (.graph ⟨[[0], [0], [0], [0], [0]], [], [0, 0, 0, 0, 0], [true]⟩)
      (on_train_epoch_start 0 initLitState)
      = (.ok 0, (⟨some 0, none, ⟨some [true], some [1], none, none, none, none⟩,
          [⟨"train_loss", 0, some 5⟩, ⟨"train_acc", 1, some 5⟩]⟩ : LitState)) := by
    simp [training_step, batch_size, forward, forwardEval, accuracy, y_pred,
      on_train_epoch_start, initLitState, initBufState]
  exact ⟨hok,
    (c10_step_batch_size id (fun _ _ => 0) (fun _ _ _ => [1]) (fun _ => [1])
      ⟨[[0], [0], [0], [0], [0]], [], [0, 0, 0, 0, 0], [true]⟩ ⟨[], []⟩
      (on_train_epoch_start 0 initLitState)).2.2.2.1 0 _ hok⟩

end QMLJet
